import Mathlib

/-!
Verification of the Japanese-to-Korean transliteration engine
(`src/components/SupplyChart.tsx`, transliteration library section).

Strings are modelled as `List Char` (sequences of Unicode scalar values); all
characters appearing in the engine's tables are in the Basic Multilingual
Plane, so JS UTF-16 code-unit indexing coincides with character indexing on
every relevant input.  JS record lookups on single-character keys are
modelled as association-list lookups, and JS truthiness of a lookup result
(`undefined` and the empty string are falsy) is modelled by `truthy`.
-/

namespace Labola

/-- JS `String.prototype.includes`: the needle occurs as a contiguous
substring of the haystack. -/
def includes (needle : List Char) : List Char → Bool
  | [] => needle.isPrefixOf []
  | c :: rest => needle.isPrefixOf (c :: rest) || includes needle rest

/-- JS `String.prototype.replaceAll` with a plain-string pattern: all
non-overlapping occurrences are replaced left to right and the replacement is
not rescanned.  (The empty-pattern case, which JS treats specially, is never
exercised: every dictionary key is nonempty.) -/
def replaceAll (key val : List Char) : List Char → List Char
  | [] => []
  | c :: rest =>
    if h : key ≠ [] ∧ key.isPrefixOf (c :: rest) then
      val ++ replaceAll key val ((c :: rest).drop key.length)
    else
      c :: replaceAll key val rest
termination_by s => s.length
decreasing_by
  · have hk : 0 < key.length := List.length_pos.mpr h.1
    simp only [List.length_drop, List.length_cons]
    omega
  · simp

/-- Stable insertion into a list sorted by decreasing length: the new element
goes after every element of strictly greater length and before elements of
equal length that came later in the original list. -/
def insertByLen (x : List Char) : List (List Char) → List (List Char)
  | [] => [x]
  | y :: ys => if x.length < y.length then y :: insertByLen x ys else x :: y :: ys

/-- Stable sort by decreasing length, modelling the JS stable
`Array.prototype.sort` with comparator `(a, b) => b.length - a.length`. -/
def sortByLenDesc : List (List Char) → List (List Char)
  | [] => []
  | x :: xs => insertByLen x (sortByLenDesc xs)

/-- Position of a key in a key list (first occurrence; length of the list
when absent).  Used to state in which order the dictionary pass reaches two
keys. -/
def posOf (k : List Char) : List (List Char) → Nat
  | [] => 0
  | x :: xs => if x == k then 0 else posOf k xs + 1

/-- JS record lookup on a single-character string key. -/
def tableGet (t : List (Char × List Char)) (c : Char) : Option (List Char) :=
  (t.find? (fun e => e.1 == c)).map (fun e => e.2)

/-- JS truthiness of a record lookup result: `undefined` (no entry) and the
empty string are falsy, every other string is truthy. -/
def truthy : Option (List Char) → Bool
  | none => false
  | some v => !v.isEmpty

-- Unicode constants for Hangul
def HANGUL_BASE : Nat := 0xAC00
def INITIAL_COUNT : Nat := 19
def MEDIAL_COUNT : Nat := 21
def FINAL_COUNT : Nat := 28

-- Jamo characters
def INITIALS : List Char := "ㄱㄲㄴㄷㄸㄹㅁㅂㅃㅅㅆㅇㅈㅉㅊㅋㅌㅍㅎ".toList
def MEDIALS : List Char := "ㅏㅐㅑㅒㅓㅔㅕㅖㅗㅘㅙㅚㅛㅜㅝㅞㅟㅠㅡㅢㅣ".toList
def FINALS : List Char := "\u0000ㄱㄲㄳㄴㄵㄶㄷㄹㄺㄻㄼㄽㄾㄿㅀㅁㅂㅄㅅㅆㅇㅈㅊㅋㅌㅍㅎ".toList

def isInitial (c : Char) : Bool := INITIALS.contains c

def isMedial (c : Char) : Bool := MEDIALS.contains c

def isFinal (c : Char) : Bool := c != '\u0000' && FINALS.contains c

/-- Check if a character is a complete Hangul syllable. -/
def isHangulSyllable (c : Char) : Bool :=
  HANGUL_BASE ≤ c.toNat && c.toNat ≤ HANGUL_BASE + 11171

/-- Result of decomposing a Hangul syllable; `final = none` models the JS
empty-string final. -/
structure Decomp where
  initial : Char
  medial : Char
  final : Option Char
deriving DecidableEq, Repr

/-- Decompose a Hangul syllable into jamos. -/
def decomposeHangul (c : Char) : Option Decomp :=
  let code := c.toNat
  if code < HANGUL_BASE ∨ code > HANGUL_BASE + 11171 then none
  else
    let syllableIndex := code - HANGUL_BASE
    let initialIndex := syllableIndex / (MEDIAL_COUNT * FINAL_COUNT)
    let medialIndex := (syllableIndex % (MEDIAL_COUNT * FINAL_COUNT)) / FINAL_COUNT
    let finalIndex := syllableIndex % FINAL_COUNT
    some ⟨(INITIALS.get? initialIndex).getD '\u0000',
          (MEDIALS.get? medialIndex).getD '\u0000',
          if finalIndex = 0 then none else some ((FINALS.get? finalIndex).getD '\u0000')⟩

/-- First index of a character in a list, `none` when absent. -/
def indexOfAux (c : Char) : List Char → Option Nat
  | [] => none
  | x :: xs => if x == c then some 0 else (indexOfAux c xs).map (fun i => i + 1)

/-- JS `String.prototype.indexOf` for a single character: first index, or -1
when absent. -/
def strIndexOf (s : List Char) (c : Char) : Int :=
  match indexOfAux c s with
  | some i => (i : Int)
  | none => -1

/-- Compose jamos into a Hangul syllable; `final = none` models the JS
default empty-string final (whose `FINALS` index is taken as 0). -/
def composeHangulSyllable (initial medial : Char) (final : Option Char) : List Char :=
  let initialIndex := strIndexOf INITIALS initial
  let medialIndex := strIndexOf MEDIALS medial
  let finalIndex : Int :=
    match final with
    | none => 0
    | some f => strIndexOf FINALS f
  if initialIndex < 0 ∨ medialIndex < 0 ∨ finalIndex < 0 then
    initial :: medial :: final.toList
  else
    [Char.ofNat (HANGUL_BASE +
      (initialIndex.toNat * MEDIAL_COUNT + medialIndex.toNat) * FINAL_COUNT +
      finalIndex.toNat)]

/-- Scanning loop of `composeHangul`: one iteration of the JS `while` loop per
recursive step, with the cursor advance realised as recursion on the
remaining suffix. -/
def composeHangulGo : List Char → List Char
  | [] => []
  | char :: rest =>
    if isHangulSyllable char then
      match rest with
      | nextChar :: rest2 =>
        if isFinal nextChar then
          if (match rest2 with | afterNext :: _ => isMedial afterNext | [] => false) then
            char :: composeHangulGo (nextChar :: rest2)
          else
            match decomposeHangul char with
            | some d =>
              if d.final = none then
                composeHangulSyllable d.initial d.medial (some nextChar) ++ composeHangulGo rest2
              else
                char :: composeHangulGo (nextChar :: rest2)
            | none => char :: composeHangulGo (nextChar :: rest2)
        else
          char :: composeHangulGo (nextChar :: rest2)
      | [] => char :: composeHangulGo []
    else if isInitial char then
      match rest with
      | nextChar :: rest2 =>
        if isMedial nextChar then
          match rest2 with
          | thirdChar :: rest3 =>
            if isFinal thirdChar then
              if (match rest3 with | fourthChar :: _ => isMedial fourthChar | [] => false) then
                composeHangulSyllable char nextChar none ++ composeHangulGo (thirdChar :: rest3)
              else
                composeHangulSyllable char nextChar (some thirdChar) ++ composeHangulGo rest3
            else
              composeHangulSyllable char nextChar none ++ composeHangulGo (thirdChar :: rest3)
          | [] => composeHangulSyllable char nextChar none ++ composeHangulGo []
        else
          char :: composeHangulGo (nextChar :: rest2)
      | [] => char :: composeHangulGo []
    else
      char :: composeHangulGo rest

/-- Composes a string of mixed jamos and syllables into proper Hangul. -/
def composeHangul (text : List Char) : List Char :=
  if text.isEmpty then [] else composeHangulGo text
/-- Word dictionary from the source, one pair per object-literal entry, in
insertion order (no key is numeric, so JS `Object.keys` order is insertion order). -/
def WORD_MAP : List (List Char × List Char) := [
  ("です！".toList, "입니다!".toList),
  ("です。".toList, "입니다.".toList),
  ("です".toList, []),
  ("ます！".toList, "합니다!".toList),
  ("ます。".toList, "합니다.".toList),
  ("ます".toList, []),
  ("の綺麗な".toList, " 깨끗한".toList),
  ("の施設".toList, " 시설".toList),
  ("の".toList, " ".toList),
  ("～".toList, "~".toList),
  ("代々木".toList, "요요기".toList),
  ("代々木競技場".toList, "요요기 경기장".toList),
  ("原宿".toList, "하라주쿠".toList),
  ("原宿駅".toList, "하라주쿠역".toList),
  ("渋谷".toList, "시부야".toList),
  ("渋谷駅".toList, "시부야역".toList),
  ("新宿".toList, "신주쿠".toList),
  ("新宿駅".toList, "신주쿠역".toList),
  ("池袋".toList, "이케부쿠로".toList),
  ("池袋駅".toList, "이케부쿠로역".toList),
  ("銀座".toList, "긴자".toList),
  ("銀座駅".toList, "긴자역".toList),
  ("東京".toList, "도쿄".toList),
  ("東京駅".toList, "도쿄역".toList),
  ("品川".toList, "시나가와".toList),
  ("品川駅".toList, "시나가와역".toList),
  ("目黒".toList, "메구로".toList),
  ("目黒駅".toList, "메구로역".toList),
  ("恵比寿".toList, "에비스".toList),
  ("恵比寿駅".toList, "에비스역".toList),
  ("秋葉原".toList, "아키하바라".toList),
  ("秋葉原駅".toList, "아키하바라역".toList),
  ("上野".toList, "우에노".toList),
  ("上野駅".toList, "우에노역".toList),
  ("浅草".toList, "아사쿠사".toList),
  ("浅草駅".toList, "아사쿠사역".toList),
  ("六本木".toList, "롯폰기".toList),
  ("六本木駅".toList, "롯폰기역".toList),
  ("赤坂".toList, "아카사카".toList),
  ("赤坂駅".toList, "아카사카역".toList),
  ("麻布".toList, "아자부".toList),
  ("麻布十番".toList, "아자부주반".toList),
  ("台場".toList, "다이바".toList),
  ("お台場".toList, "오다이바".toList),
  ("錦糸町".toList, "킨시초".toList),
  ("蒲田".toList, "카마타".toList),
  ("大井町".toList, "오이마치".toList),
  ("五反田".toList, "고탄다".toList),
  ("田町".toList, "다마치".toList),
  ("浜松町".toList, "하마마츠초".toList),
  ("高田馬場".toList, "다카다노바바".toList),
  ("新大久保".toList, "신오쿠보".toList),
  ("中野".toList, "나카노".toList),
  ("荻窪".toList, "오기쿠보".toList),
  ("吉祥寺".toList, "키치조지".toList),
  ("三鷹".toList, "미타카".toList),
  ("調布".toList, "초후".toList),
  ("府中".toList, "후추".toList),
  ("町田".toList, "마치다".toList),
  ("立川".toList, "타치카와".toList),
  ("八王子".toList, "하치오지".toList),
  ("三軒茶屋".toList, "산겐자야".toList),
  ("下北沢".toList, "시모키타자와".toList),
  ("中目黒".toList, "나카메구로".toList),
  ("自由が丘".toList, "지유가오카".toList),
  ("二子玉川".toList, "후타코타마가와".toList),
  ("武蔵小杉".toList, "무사시코스기".toList),
  ("溝の口".toList, "미조노쿠치".toList),
  ("たまプラーザ".toList, "타마프라자".toList),
  ("日吉".toList, "히요시".toList),
  ("菊名".toList, "키쿠나".toList),
  ("綱島".toList, "츠나시마".toList),
  ("大倉山".toList, "오쿠라야마".toList),
  ("白楽".toList, "하쿠라쿠".toList),
  ("横浜".toList, "요코하마".toList),
  ("横浜駅".toList, "요코하마역".toList),
  ("川崎".toList, "카와사키".toList),
  ("川崎駅".toList, "카와사키역".toList),
  ("鶴見".toList, "츠루미".toList),
  ("戸塚".toList, "토츠카".toList),
  ("藤沢".toList, "후지사와".toList),
  ("大船".toList, "오후나".toList),
  ("鎌倉".toList, "카마쿠라".toList),
  ("江ノ島".toList, "에노시마".toList),
  ("茅ヶ崎".toList, "치가사키".toList),
  ("平塚".toList, "히라츠카".toList),
  ("小田原".toList, "오다와라".toList),
  ("厚木".toList, "아츠기".toList),
  ("海老名".toList, "에비나".toList),
  ("相模大野".toList, "사가미오노".toList),
  ("橋本".toList, "하시모토".toList),
  ("落合".toList, "오치아이".toList),
  ("落合南長崎".toList, "오치아이 미나미나가사키".toList),
  ("落合南長崎駅".toList, "오치아이 미나미나가사키역".toList),
  ("南長崎".toList, "미나미나가사키".toList),
  ("日本橋".toList, "니혼바시".toList),
  ("水道橋".toList, "스이도바시".toList),
  ("飯田橋".toList, "이이다바시".toList),
  ("神楽坂".toList, "카구라자카".toList),
  ("後楽園".toList, "코라쿠엔".toList),
  ("巣鴨".toList, "스가모".toList),
  ("駒込".toList, "코마고메".toList),
  ("西日暮里".toList, "니시닛포리".toList),
  ("日暮里".toList, "닛포리".toList),
  ("北千住".toList, "키타센주".toList),
  ("南千住".toList, "미나미센주".toList),
  ("亀戸".toList, "카메이도".toList),
  ("両国".toList, "료고쿠".toList),
  ("門前仲町".toList, "몬젠나카초".toList),
  ("豊洲".toList, "토요스".toList),
  ("有明".toList, "아리아케".toList),
  ("新木場".toList, "신키바".toList),
  ("葛西".toList, "카사이".toList),
  ("西葛西".toList, "니시카사이".toList),
  ("船橋".toList, "후나바시".toList),
  ("津田沼".toList, "츠다누마".toList),
  ("千葉".toList, "치바".toList),
  ("幕張".toList, "마쿠하리".toList),
  ("海浜幕張".toList, "카이힌마쿠하리".toList),
  ("柏".toList, "카시와".toList),
  ("松戸".toList, "마츠도".toList),
  ("取手".toList, "토리데".toList),
  ("大宮".toList, "오미야".toList),
  ("浦和".toList, "우라와".toList),
  ("川口".toList, "카와구치".toList),
  ("草加".toList, "소카".toList),
  ("越谷".toList, "코시가야".toList),
  ("春日部".toList, "카스카베".toList),
  ("所沢".toList, "토코로자와".toList),
  ("川越".toList, "카와고에".toList),
  ("大阪".toList, "오사카".toList),
  ("大阪駅".toList, "오사카역".toList),
  ("梅田".toList, "우메다".toList),
  ("難波".toList, "난바".toList),
  ("心斎橋".toList, "신사이바시".toList),
  ("天王寺".toList, "텐노지".toList),
  ("京橋".toList, "쿄바시".toList),
  ("新大阪".toList, "신오사카".toList),
  ("淀屋橋".toList, "요도야바시".toList),
  ("本町".toList, "혼마치".toList),
  ("名古屋".toList, "나고야".toList),
  ("京都".toList, "교토".toList),
  ("神戸".toList, "고베".toList),
  ("福岡".toList, "후쿠오카".toList),
  ("札幌".toList, "삿포로".toList),
  ("仙台".toList, "센다이".toList),
  ("広島".toList, "히로시마".toList),
  ("北九州".toList, "키타큐슈".toList),
  ("那覇".toList, "나하".toList),
  ("競技場".toList, "경기장".toList),
  ("体育館".toList, "체육관".toList),
  ("運動場".toList, "운동장".toList),
  ("総合運動場".toList, "종합운동장".toList),
  ("スタジアム".toList, "스타디움".toList),
  ("アリーナ".toList, "아레나".toList),
  ("ドーム".toList, "돔".toList),
  ("センター".toList, "센터".toList),
  ("パーク".toList, "파크".toList),
  ("公園".toList, "공원".toList),
  ("広場".toList, "광장".toList),
  ("駅徒歩".toList, "역 도보".toList),
  ("徒歩".toList, "도보".toList),
  ("分".toList, "분".toList),
  ("秒".toList, "초".toList),
  ("直結".toList, "직결".toList),
  ("駅直結".toList, "역 직결".toList),
  ("出口".toList, "출구".toList),
  ("北口".toList, "북쪽출구".toList),
  ("南口".toList, "남쪽출구".toList),
  ("東口".toList, "동쪽출구".toList),
  ("西口".toList, "서쪽출구".toList),
  ("中央口".toList, "중앙출구".toList),
  ("ボンフィン".toList, "본핀".toList),
  ("フットサル".toList, "풋살".toList),
  ("サッカー".toList, "축구".toList),
  ("スポーツ".toList, "스포츠".toList),
  ("コート".toList, "코트".toList),
  ("アクセス".toList, "접근성".toList),
  ("サービス".toList, "서비스".toList),
  ("ステージ".toList, "스테이지".toList),
  ("カテゴリー".toList, "카테고리".toList),
  ("エンジョイ".toList, "엔조이".toList),
  ("ミックス".toList, "믹스".toList),
  ("キャンペーン".toList, "캠페인".toList),
  ("コサル".toList, "개인풋살".toList),
  ("アスタ".toList, "아스타".toList),
  ("ビギナー".toList, "비기너".toList),
  ("レベル".toList, "레벨".toList),
  ("インドア".toList, "인도어".toList),
  ("アウトドア".toList, "아웃도어".toList),
  ("アクセス抜群".toList, "접근성 최고".toList),
  ("綺麗な施設".toList, "깨끗한 시설".toList),
  ("個人参加".toList, "개인참가".toList),
  ("屋内コート".toList, "실내 코트".toList),
  ("完全室内".toList, "완전 실내".toList),
  ("初心者歓迎".toList, "초보자 환영".toList),
  ("経験者向け".toList, "유경험자 대상".toList),
  ("朝イチ".toList, "아침 첫 타임".toList),
  ("個サル".toList, "개인풋살".toList),
  ("屋外".toList, "야외".toList),
  ("屋上".toList, "옥상".toList),
  ("室内".toList, "실내".toList),
  ("屋内".toList, "실내".toList),
  ("初心者".toList, "초보자".toList),
  ("経験者".toList, "경험자".toList),
  ("中級".toList, "중급".toList),
  ("上級".toList, "상급".toList),
  ("初級".toList, "초급".toList),
  ("女性".toList, "여성".toList),
  ("男性".toList, "남성".toList),
  ("中止".toList, "중지".toList),
  ("開催".toList, "개최".toList),
  ("割引".toList, "할인".toList),
  ("募集".toList, "모집".toList),
  ("綺麗".toList, "깨끗한".toList),
  ("抜群".toList, "최고".toList)
]

/-- Multi-character katakana combinations, in source array order
(3-character patterns first, then 2-character ones). -/
def KATAKANA_COMPOUNDS : List (List Char × List Char) := [
  ("キャン".toList, "캔".toList),
  ("シャー".toList, "샤".toList),
  ("チャー".toList, "차".toList),
  ("キャ".toList, "캬".toList),
  ("キュ".toList, "큐".toList),
  ("キョ".toList, "쿄".toList),
  ("シャ".toList, "샤".toList),
  ("シュ".toList, "슈".toList),
  ("ショ".toList, "쇼".toList),
  ("チャ".toList, "차".toList),
  ("チュ".toList, "추".toList),
  ("チョ".toList, "초".toList),
  ("ニャ".toList, "냐".toList),
  ("ニュ".toList, "뉴".toList),
  ("ニョ".toList, "뇨".toList),
  ("ヒャ".toList, "햐".toList),
  ("ヒュ".toList, "휴".toList),
  ("ヒョ".toList, "효".toList),
  ("ミャ".toList, "먀".toList),
  ("ミュ".toList, "뮤".toList),
  ("ミョ".toList, "묘".toList),
  ("リャ".toList, "랴".toList),
  ("リュ".toList, "류".toList),
  ("リョ".toList, "료".toList),
  ("ギャ".toList, "갸".toList),
  ("ギュ".toList, "규".toList),
  ("ギョ".toList, "교".toList),
  ("ジャ".toList, "자".toList),
  ("ジュ".toList, "주".toList),
  ("ジョ".toList, "조".toList),
  ("ビャ".toList, "뱌".toList),
  ("ビュ".toList, "뷰".toList),
  ("ビョ".toList, "뵤".toList),
  ("ピャ".toList, "퍄".toList),
  ("ピュ".toList, "퓨".toList),
  ("ピョ".toList, "표".toList),
  ("イェ".toList, "예".toList),
  ("ウィ".toList, "위".toList),
  ("ウェ".toList, "웨".toList),
  ("ウォ".toList, "워".toList),
  ("ヴァ".toList, "바".toList),
  ("ヴィ".toList, "비".toList),
  ("ヴェ".toList, "베".toList),
  ("ヴォ".toList, "보".toList),
  ("シェ".toList, "셰".toList),
  ("ジェ".toList, "제".toList),
  ("チェ".toList, "체".toList),
  ("ティ".toList, "티".toList),
  ("ディ".toList, "디".toList),
  ("デュ".toList, "듀".toList),
  ("ファ".toList, "파".toList),
  ("フィ".toList, "피".toList),
  ("フェ".toList, "페".toList),
  ("フォ".toList, "포".toList),
  ("ツァ".toList, "차".toList),
  ("ツィ".toList, "치".toList),
  ("ツェ".toList, "체".toList),
  ("ツォ".toList, "초".toList),
  ("ッカ".toList, "까".toList),
  ("ッキ".toList, "끼".toList),
  ("ック".toList, "끄".toList),
  ("ッケ".toList, "께".toList),
  ("ッコ".toList, "꼬".toList),
  ("ッサ".toList, "싸".toList),
  ("ッシ".toList, "씨".toList),
  ("ッス".toList, "쓰".toList),
  ("ッセ".toList, "쎄".toList),
  ("ッソ".toList, "쏘".toList),
  ("ッタ".toList, "따".toList),
  ("ッチ".toList, "찌".toList),
  ("ッツ".toList, "쯔".toList),
  ("ッテ".toList, "떼".toList),
  ("ット".toList, "또".toList),
  ("ッパ".toList, "빠".toList),
  ("ッピ".toList, "삐".toList),
  ("ップ".toList, "뿌".toList),
  ("ッペ".toList, "뻬".toList),
  ("ッポ".toList, "뽀".toList)
]

/-- Single katakana to hangul; `ー` and `ッ` map to the empty string. -/
def KATAKANA_SINGLE : List (Char × List Char) := [
  ('ア', "아".toList),
  ('イ', "이".toList),
  ('ウ', "우".toList),
  ('エ', "에".toList),
  ('オ', "오".toList),
  ('カ', "카".toList),
  ('キ', "키".toList),
  ('ク', "쿠".toList),
  ('ケ', "케".toList),
  ('コ', "코".toList),
  ('サ', "사".toList),
  ('シ', "시".toList),
  ('ス', "스".toList),
  ('セ', "세".toList),
  ('ソ', "소".toList),
  ('タ', "타".toList),
  ('チ', "치".toList),
  ('ツ', "츠".toList),
  ('テ', "테".toList),
  ('ト', "토".toList),
  ('ナ', "나".toList),
  ('ニ', "니".toList),
  ('ヌ', "누".toList),
  ('ネ', "네".toList),
  ('ノ', "노".toList),
  ('ハ', "하".toList),
  ('ヒ', "히".toList),
  ('フ', "후".toList),
  ('ヘ', "헤".toList),
  ('ホ', "호".toList),
  ('マ', "마".toList),
  ('ミ', "미".toList),
  ('ム', "무".toList),
  ('メ', "메".toList),
  ('モ', "모".toList),
  ('ヤ', "야".toList),
  ('ユ', "유".toList),
  ('ヨ', "요".toList),
  ('ラ', "라".toList),
  ('リ', "리".toList),
  ('ル', "루".toList),
  ('レ', "레".toList),
  ('ロ', "로".toList),
  ('ワ', "와".toList),
  ('ヲ', "오".toList),
  ('ン', "ㄴ".toList),
  ('ガ', "가".toList),
  ('ギ', "기".toList),
  ('グ', "구".toList),
  ('ゲ', "게".toList),
  ('ゴ', "고".toList),
  ('ザ', "자".toList),
  ('ジ', "지".toList),
  ('ズ', "즈".toList),
  ('ゼ', "제".toList),
  ('ゾ', "조".toList),
  ('ダ', "다".toList),
  ('ヂ', "지".toList),
  ('ヅ', "즈".toList),
  ('デ', "데".toList),
  ('ド', "도".toList),
  ('バ', "바".toList),
  ('ビ', "비".toList),
  ('ブ', "부".toList),
  ('ベ', "베".toList),
  ('ボ', "보".toList),
  ('パ', "파".toList),
  ('ピ', "피".toList),
  ('プ', "푸".toList),
  ('ペ', "페".toList),
  ('ポ', "포".toList),
  ('ヴ', "브".toList),
  ('ー', []),
  ('ッ', [])
]

/-- Single hiragana to hangul. -/
def HIRAGANA_SINGLE : List (Char × List Char) := [
  ('あ', "아".toList),
  ('い', "이".toList),
  ('う', "우".toList),
  ('え', "에".toList),
  ('お', "오".toList),
  ('か', "카".toList),
  ('き', "키".toList),
  ('く', "쿠".toList),
  ('け', "케".toList),
  ('こ', "코".toList),
  ('さ', "사".toList),
  ('し', "시".toList),
  ('す', "스".toList),
  ('せ', "세".toList),
  ('そ', "소".toList),
  ('た', "타".toList),
  ('ち', "치".toList),
  ('つ', "츠".toList),
  ('て', "테".toList),
  ('と', "토".toList),
  ('な', "나".toList),
  ('に', "니".toList),
  ('ぬ', "누".toList),
  ('ね', "네".toList),
  ('の', "노".toList),
  ('は', "하".toList),
  ('ひ', "히".toList),
  ('ふ', "후".toList),
  ('へ', "헤".toList),
  ('ほ', "호".toList),
  ('ま', "마".toList),
  ('み', "미".toList),
  ('む', "무".toList),
  ('め', "메".toList),
  ('も', "모".toList),
  ('や', "야".toList),
  ('ゆ', "유".toList),
  ('よ', "요".toList),
  ('ら', "라".toList),
  ('り', "리".toList),
  ('る', "루".toList),
  ('れ', "레".toList),
  ('ろ', "로".toList),
  ('わ', "와".toList),
  ('を', "오".toList),
  ('ん', "ㄴ".toList),
  ('が', "가".toList),
  ('ぎ', "기".toList),
  ('ぐ', "구".toList),
  ('げ', "게".toList),
  ('ご', "고".toList),
  ('ざ', "자".toList),
  ('じ', "지".toList),
  ('ず', "즈".toList),
  ('ぜ', "제".toList),
  ('ぞ', "조".toList),
  ('だ', "다".toList),
  ('ぢ', "지".toList),
  ('づ', "즈".toList),
  ('で', "데".toList),
  ('ど', "도".toList),
  ('ば', "바".toList),
  ('び', "비".toList),
  ('ぶ', "부".toList),
  ('べ', "베".toList),
  ('ぼ', "보".toList),
  ('ぱ', "파".toList),
  ('ぴ', "피".toList),
  ('ぷ', "푸".toList),
  ('ぺ', "페".toList),
  ('ぽ', "포".toList)
]

/-- Kanji to Sino-Korean reading fallback. -/
def KANJI_MAP : List (Char × List Char) := [
  ('日', "일".toList),
  ('本', "본".toList),
  ('橋', "교".toList),
  ('中', "중".toList),
  ('央', "앙".toList),
  ('区', "구".toList),
  ('立', "립".toList),
  ('総', "총".toList),
  ('合', "합".toList),
  ('室', "실".toList),
  ('内', "내".toList),
  ('浜', "빈".toList),
  ('町', "정".toList),
  ('駅', "역".toList),
  ('分', "분".toList),
  ('時', "시".toList),
  ('間', "간".toList),
  ('個', "개".toList),
  ('人', "인".toList),
  ('参', "참".toList),
  ('加', "가".toList),
  ('都', "도".toList),
  ('丁', "정".toList),
  ('目', "목".toList),
  ('数', "수".toList),
  ('不', "부".toList),
  ('足', "족".toList),
  ('為', "위".toList),
  ('止', "지".toList),
  ('横', "횡".toList),
  ('神', "신".toList),
  ('奈', "나".toList),
  ('川', "천".toList),
  ('県', "현".toList),
  ('市', "시".toList),
  ('山', "산".toList),
  ('隔', "격".toList),
  ('週', "주".toList),
  ('催', "최".toList),
  ('経', "경".toList),
  ('験', "험".toList),
  ('者', "자".toList),
  ('向', "향".toList),
  ('先', "선".toList),
  ('着', "착".toList),
  ('割', "할".toList),
  ('名', "명".toList),
  ('水', "수".toList),
  ('曜', "요".toList),
  ('朝', "조".toList),
  ('座', "좌".toList),
  ('西', "서".toList),
  ('田', "전".toList),
  ('無', "무".toList),
  ('屋', "옥".toList),
  ('上', "상".toList),
  ('前', "전".toList),
  ('円', "원".toList),
  ('引', "인".toList),
  ('平', "평".toList),
  ('昼', "주".toList),
  ('出', "출".toList),
  ('完', "완".toList),
  ('全', "전".toList),
  ('和', "화".toList),
  ('光', "광".toList),
  ('成', "성".toList),
  ('増', "증".toList),
  ('埼', "기".toList),
  ('玉', "옥".toList),
  ('白', "백".toList),
  ('子', "자".toList),
  ('老', "노".toList),
  ('若', "약".toList),
  ('男', "남".toList),
  ('女', "여".toList),
  ('誰', "수".toList),
  ('楽', "락".toList),
  ('健', "건".toList),
  ('康', "강".toList),
  ('崎', "기".toList),
  ('高', "고".toList),
  ('津', "진".toList),
  ('蟹', "해".toList),
  ('谷', "곡".toList),
  ('当', "당".toList),
  ('予', "예".toList),
  ('約', "약".toList),
  ('詳', "상".toList),
  ('細', "세".toList),
  ('確', "확".toList),
  ('認', "인".toList),
  ('問', "문".toList),
  ('新', "신".toList),
  ('宿', "숙".toList),
  ('限', "한".toList),
  ('定', "정".toList),
  ('利', "이".toList),
  ('用', "용".toList),
  ('空', "공".toList),
  ('電', "전".toList),
  ('話', "화".toList),
  ('代', "대".toList),
  ('木', "목".toList),
  ('競', "경".toList),
  ('技', "기".toList),
  ('場', "장".toList),
  ('原', "원".toList),
  ('徒', "도".toList),
  ('歩', "보".toList),
  ('群', "군".toList),
  ('麗', "려".toList),
  ('施', "시".toList),
  ('設', "설".toList),
  ('渋', "삽".toList),
  ('南', "남".toList),
  ('国', "국".toList),
  ('第', "제".toList),
  ('一', "일".toList),
  ('体', "체".toList),
  ('育', "육".toList),
  ('館', "관".toList),
  ('落', "낙".toList),
  ('長', "장".toList),
  ('大', "대".toList),
  ('江', "강".toList),
  ('戸', "호".toList),
  ('線', "선".toList),
  ('結', "결".toList),
  ('豊', "풍".toList),
  ('島', "도".toList),
  ('吉', "길".toList),
  ('祥', "상".toList),
  ('寺', "사".toList),
  ('海', "해".toList),
  ('工', "공".toList),
  ('芝', "지".toList),
  ('更', "경".toList),
  ('衣', "의".toList),
  ('備', "비".toList),
  ('音', "음".toList),
  ('流', "류".toList),
  ('武', "무".toList),
  ('蔵', "장".toList),
  ('野', "야".toList),
  ('錦', "금".toList),
  ('糸', "사".toList),
  ('階', "계".toList),
  ('墨', "묵".toList),
  ('活', "활".toList),
  ('千', "천".toList),
  ('住', "주".toList),
  ('緑', "녹".toList),
  ('番', "번".toList),
  ('号', "호".toList),
  ('級', "급".toList),
  ('以', "이".toList),
  ('方', "방".toList),
  ('冷', "냉".toList),
  ('房', "방".toList),
  ('陽', "양".toList),
  ('砂', "사".toList),
  ('期', "기".toList),
  ('宮', "궁".toList),
  ('土', "토".toList),
  ('面', "면".toList),
  ('倒', "도".toList),
  ('要', "요".toList),
  ('保', "보".toList),
  ('試', "시".toList),
  ('筑', "축".toList),
  ('延', "연".toList),
  ('店', "점".toList),
  ('曙', "서".toList),
  ('柏', "백".toList),
  ('葉', "엽".toList),
  ('駒', "구".toList),
  ('台', "대".toList),
  ('優', "우".toList),
  ('連', "연".toList),
  ('絡', "락".toList),
  ('枠', "틀".toList),
  ('船', "선".toList),
  ('鎌', "겸".toList),
  ('倉', "창".toList),
  ('友', "우".toList),
  ('満', "만".toList),
  ('員', "원".toList),
  ('御', "어".toList),
  ('礼', "례".toList),
  ('天', "천".toList),
  ('下', "하".toList),
  ('茶', "다".toList),
  ('阪', "판".toList),
  ('府', "부".toList),
  ('岸', "안".toList),
  ('里', "리".toList),
  ('姫', "희".toList),
  ('路', "로".toList),
  ('兵', "병".toList),
  ('庫', "고".toList),
  ('八', "팔".toList),
  ('家', "가".toList),
  ('越', "월".toList),
  ('蒲', "포".toList),
  ('生', "생".toList),
  ('早', "조".toList),
  ('続', "속".toList),
  ('北', "북".toList),
  ('口', "구".toList),
  ('歳', "세".toList),
  ('性', "성".toList),
  ('湘', "상".toList),
  ('藤', "등".toList),
  ('沢', "택".toList),
  ('専', "전".toList),
  ('初', "초".toList),
  ('歓', "환".toList),
  ('迎', "영".toList),
  ('根', "근".toList),
  ('付', "부".toList),
  ('回', "회".toList),
  ('券', "권".toList),
  ('蘇', "소".toList),
  ('我', "아".toList),
  ('急', "급".toList),
  ('安', "안".toList),
  ('心', "심".toList),
  ('指', "지".toList),
  ('浦', "포".toList),
  ('広', "광".toList),
  ('尾', "미".toList),
  ('放', "방".toList),
  ('年', "년".toList),
  ('選', "선".toList),
  ('手', "수".toList),
  ('教', "교".toList),
  ('所', "소".toList),
  ('属', "속".toList),
  ('得', "득".toList),
  ('可', "가".toList),
  ('少', "소".toList),
  ('厚', "후".toList),
  ('愛', "애".toList),
  ('甲', "갑".toList),
  ('残', "잔".toList),
  ('営', "영".toList),
  ('業', "업".toList),
  ('終', "종".toList),
  ('了', "료".toList),
  ('料', "료".toList),
  ('古', "고".toList),
  ('知', "지".toList),
  ('村', "촌".toList),
  ('池', "지".toList),
  ('尼', "니".toList),
  ('塚', "총".toList),
  ('洲', "주".toList),
  ('幸', "행".toList),
  ('決', "결".toList),
  ('型', "형".toList),
  ('宇', "우".toList),
  ('品', "품".toList),
  ('能', "능".toList),
  ('学', "학".toList),
  ('対', "대".toList),
  ('象', "상".toList),
  ('通', "통".toList),
  ('常', "상".toList),
  ('金', "금".toList),
  ('幕', "막".toList),
  ('張', "장".toList),
  ('花', "화".toList),
  ('見', "견".toList),
  ('機', "기".toList),
  ('価', "가".toList),
  ('格', "격".toList),
  ('翼', "익".toList),
  ('梅', "매".toList),
  ('深', "심".toList),
  ('福', "복".toList),
  ('術', "술".toList),
  ('基', "기".toList),
  ('礎', "초".toList),
  ('鬼', "귀".toList),
  ('富', "부".toList),
  ('士', "사".toList),
  ('動', "동".toList),
  ('画', "화".toList),
  ('撮', "촬".toList),
  ('影', "영".toList),
  ('月', "월".toList),
  ('堺', "계".toList),
  ('美', "미".toList),
  ('材', "재".toList),
  ('之', "지".toList),
  ('泉', "천".toList),
  ('春', "춘".toList),
  ('部', "부".toList),
  ('後', "후".toList),
  ('単', "단".toList),
  ('発', "발".toList),
  ('低', "저".toList),
  ('多', "다".toList),
  ('摩', "마".toList),
  ('球', "구".toList),
  ('倶', "구".toList),
  ('河', "하".toList),
  ('練', "련".toList),
  ('習', "습".toList),
  ('会', "회".toList),
  ('王', "왕".toList),
  ('臼', "구".toList),
  ('板', "판".toList),
  ('蓮', "련".toList),
  ('外', "외".toList),
  ('仙', "선".toList),
  ('城', "성".toList),
  ('治', "치".toList),
  ('槇', "전".toList),
  ('清', "청".toList),
  ('茨', "자".toList),
  ('三', "삼".toList),
  ('丘', "구".toList),
  ('吹', "취".toList),
  ('駐', "주".toList),
  ('車', "차".toList),
  ('半', "반".toList),
  ('久', "구".toList),
  ('宝', "보".toList),
  ('龍', "용".toList),
  ('華', "화".toList),
  ('近', "근".toList),
  ('九', "구".toList),
  ('条', "조".toList),
  ('此', "차".toList),
  ('岡', "강".toList),
  ('博', "박".toList),
  ('那', "나".toList),
  ('珂', "가".toList),
  ('小', "소".toList),
  ('夜', "야".toList),
  ('鶴', "학".toList),
  ('沼', "소".toList),
  ('柴', "시".toList),
  ('橿', "강".toList),
  ('良', "양".toList),
  ('地', "지".toList),
  ('旭', "욱".toList),
  ('殿', "전".toList),
  ('周', "주".toList),
  ('州', "주".toList),
  ('幡', "번".toList),
  ('袖', "수".toList),
  ('最', "최".toList),
  ('枚', "매".toList),
  ('貰', "세".toList),
  ('待', "대".toList),
  ('登', "등".toList),
  ('録', "록".toList),
  ('元', "원".toList),
  ('道', "도".toList),
  ('徹', "철".toList),
  ('底', "저".toList),
  ('文', "문".toList),
  ('郷', "향".toList),
  ('重', "중".toList),
  ('視', "시".toList),
  ('軽', "경".toList),
  ('喫', "끽".toList),
  ('煙', "연".toList),
  ('超', "초".toList),
  ('運', "운".toList),
  ('慣', "관".toList),
  ('夢', "몽".toList),
  ('曽', "증".toList),
  ('霞', "하".toList),
  ('倍', "배".toList),
  ('六', "육".toList),
  ('有', "유".toList),
  ('調', "조".toList),
  ('布', "포".toList),
  ('味', "미".toList),
  ('素', "소".toList),
  ('脱', "탈".toList),
  ('入', "입".toList),
  ('門', "문".toList),
  ('火', "화".toList),
  ('商', "상".toList),
  ('棟', "동".toList),
  ('両', "양".toList),
  ('進', "진".toList),
  ('候', "후".toList),
  ('気', "기".toList),
  ('温', "온".toList),
  ('左', "좌".toList),
  ('右', "우".toList),
  ('快', "쾌".toList),
  ('適', "적".toList),
  ('戦', "전".toList),
  ('百', "백".toList),
  ('麻', "마".toList),
  ('万', "만".toList),
  ('妙', "묘".toList),
  ('典', "전".toList),
  ('街', "가".toList),
  ('同', "동".toList),
  ('勝', "승".toList),
  ('鴨', "압".toList),
  ('居', "거".toList),
  ('服', "복".toList),
  ('采', "채".toList),
  ('担', "담".toList),
  ('太', "태".toList),
  ('井', "정".toList),
  ('孔', "공".toList),
  ('晟', "성".toList),
  ('改', "개".toList),
  ('札', "찰".toList),
  ('蹴', "축".toList),
  ('松', "송".toList),
  ('森', "삼".toList),
  ('遽', "거".toList),
  ('薬', "약".toList),
  ('滝', "용".toList),
  ('証', "증".toList),
  ('港', "항".toList),
  ('貨', "화".toList),
  ('拡', "확".toList),
  ('募', "모".toList),
  ('集', "집".toList),
  ('雨', "우".toList),
  ('推', "추".toList),
  ('奨', "장".toList),
  ('制', "제".toList),
  ('度', "도".toList),
  ('爆', "폭".toList),
  ('印', "인".toList),
  ('冬', "동".toList),
  ('熱', "열".toList),
  ('量', "량".toList),
  ('取', "취".toList),
  ('鹿', "록".toList),
  ('黒', "흑".toList),
  ('晴', "청".toList),
  ('鴻', "홍".toList),
  ('巣', "소".toList),
  ('団', "단".toList),
  ('赤', "적".toList),
  ('坂', "판".toList),
  ('茂', "무".toList),
  ('関', "관".toList),
  ('景', "경".toList),
  ('吾', "오".toList),
  ('妻', "처".toList),
  ('栃', "회".toList),
  ('喜', "희".toList),
  ('馬', "마".toList),
  ('次', "차".toList),
  ('静', "정".toList),
  ('駿', "준".toList),
  ('丸', "환".toList),
  ('厳', "엄".toList),
  ('禁', "금".toList),
  ('熊', "웅".toList),
  ('主', "주".toList),
  ('栄', "영".toList),
  ('精', "정".toList),
  ('潟', "석".toList),
  ('牧', "목".toList),
  ('稲', "도".toList),
  ('坪', "평".toList),
  ('澤', "택".toList),
  ('郡', "군".toList),
  ('伏', "복".toList),
  ('桃', "도".toList),
  ('公', "공".toList),
  ('園', "원".toList),
  ('現', "현".toList),
  ('在', "재".toList),
  ('押', "압".toList),
  ('須', "수".toList),
  ('灘', "탄".toList),
  ('青', "청".toList),
  ('臨', "임".toList),
  ('岬', "갑".toList),
  ('庄', "장".toList),
  ('秘', "비".toList),
  ('密', "밀".toList),
  ('求', "구".toList),
  ('編', "편".toList),
  ('磨', "마".toList),
  ('的', "적".toList),
  ('明', "명".toList),
  ('石', "석".toList),
  ('貸', "대".toList),
  ('切', "절".toList),
  ('京', "경".toList),
  ('東', "동".toList)
]

/-- Dictionary keys sorted by length, longer first. -/
def WORD_MAP_KEYS : List (List Char) := sortByLenDesc (WORD_MAP.map Prod.fst)

/-- Value of a dictionary key (every key queried is present in `WORD_MAP`). -/
def wordMapGet (k : List Char) : List Char :=
  ((WORD_MAP.find? (fun e => e.1 == k)).map (fun e => e.2)).getD []

/-- Step 1 of `transliterate`: apply the word dictionary, longest match
first, replacing all occurrences of each key in turn. -/
def applyWordMap (text : List Char) : List Char :=
  WORD_MAP_KEYS.foldl
    (fun result key =>
      if includes key result then replaceAll key (wordMapGet key) result else result)
    text

/-- First katakana compound whose pattern starts at the given position
(JS `substring` comparison equals a prefix test on the suffix). -/
def findCompound (s : List Char) : Option (List Char × List Char) :=
  KATAKANA_COMPOUNDS.find? (fun p => p.1.isPrefixOf s)

/-- Step 2 of `transliterate`: the character-by-character scanning loop, one
JS `while` iteration per recursive step. -/
def phoneticGo : List Char → List Char
  | [] => []
  | char :: rest =>
    match h : findCompound (char :: rest) with
    | some p => p.2 ++ phoneticGo ((char :: rest).drop p.1.length)
    | none =>
      if char = 'ー' then
        phoneticGo rest
      else if truthy (tableGet KATAKANA_SINGLE char) then
        (tableGet KATAKANA_SINGLE char).getD [] ++ phoneticGo rest
      else if truthy (tableGet HIRAGANA_SINGLE char) then
        (tableGet HIRAGANA_SINGLE char).getD [] ++ phoneticGo rest
      else if truthy (tableGet KANJI_MAP char) then
        (tableGet KANJI_MAP char).getD [] ++ phoneticGo rest
      else
        char :: phoneticGo rest
termination_by s => s.length
decreasing_by
  · have hmem := List.mem_of_find?_eq_some h
    have hne : p.1 ≠ [] :=
      (by decide : ∀ q ∈ KATAKANA_COMPOUNDS, q.1 ≠ []) p hmem
    have hk : 0 < p.1.length := List.length_pos.mpr hne
    simp only [List.length_drop, List.length_cons]
    omega
  all_goals simp

/-- Target language: `ko` selects the three-stage transform, `ja` is the
pass-through language. -/
inductive Lang
  | ko
  | ja
deriving DecidableEq, Repr

/-- Transliterate Japanese text to Korean (the engine's single entry point). -/
def transliterate (text : List Char) (lang : Lang) : List Char :=
  if text.isEmpty then []
  else if lang = Lang.ja then text
  else composeHangul (phoneticGo (applyWordMap text))

/-! ### Fuel-indexed loop mirrors

Each JS `while` loop advances its cursor by at least one position per
iteration, so a loop over a string of length `n` performs at most `n`
iterations.  The functions below mirror the loops with an explicit iteration
budget (`fuel`), returning `none` if the budget is exhausted; running them
with `fuel` equal to the string length and showing the result is `some _`
expresses exactly that every loop advances and the engine terminates. -/

/-- `replaceAll` with an explicit recursion budget. -/
def replaceAllFuel (key val : List Char) : Nat → List Char → Option (List Char)
  | _, [] => some []
  | 0, _ :: _ => none
  | fuel + 1, c :: rest =>
    if key ≠ [] ∧ key.isPrefixOf (c :: rest) then
      (replaceAllFuel key val fuel ((c :: rest).drop key.length)).map (fun t => val ++ t)
    else
      (replaceAllFuel key val fuel rest).map (fun t => c :: t)

/-- The dictionary pass with budgeted `replaceAll` (the pass itself iterates
over the fixed key list, which is structurally bounded). -/
def applyWordMapFuel (text : List Char) : Option (List Char) :=
  WORD_MAP_KEYS.foldl
    (fun acc key =>
      acc.bind (fun result =>
        if includes key result then replaceAllFuel key (wordMapGet key) result.length result
        else some result))
    (some text)

/-- The phonetic scanning loop with an explicit iteration budget. -/
def phoneticFuel : Nat → List Char → Option (List Char)
  | _, [] => some []
  | 0, _ :: _ => none
  | fuel + 1, char :: rest =>
    match findCompound (char :: rest) with
    | some p => (phoneticFuel fuel ((char :: rest).drop p.1.length)).map (fun t => p.2 ++ t)
    | none =>
      if char = 'ー' then
        phoneticFuel fuel rest
      else if truthy (tableGet KATAKANA_SINGLE char) then
        (phoneticFuel fuel rest).map (fun t => (tableGet KATAKANA_SINGLE char).getD [] ++ t)
      else if truthy (tableGet HIRAGANA_SINGLE char) then
        (phoneticFuel fuel rest).map (fun t => (tableGet HIRAGANA_SINGLE char).getD [] ++ t)
      else if truthy (tableGet KANJI_MAP char) then
        (phoneticFuel fuel rest).map (fun t => (tableGet KANJI_MAP char).getD [] ++ t)
      else
        (phoneticFuel fuel rest).map (fun t => char :: t)

/-- The composition loop with an explicit iteration budget. -/
def composeFuel : Nat → List Char → Option (List Char)
  | _, [] => some []
  | 0, _ :: _ => none
  | fuel + 1, char :: rest =>
    if isHangulSyllable char then
      match rest with
      | nextChar :: rest2 =>
        if isFinal nextChar then
          if (match rest2 with | afterNext :: _ => isMedial afterNext | [] => false) then
            (composeFuel fuel (nextChar :: rest2)).map (fun t => char :: t)
          else
            match decomposeHangul char with
            | some d =>
              if d.final = none then
                (composeFuel fuel rest2).map
                  (fun t => composeHangulSyllable d.initial d.medial (some nextChar) ++ t)
              else
                (composeFuel fuel (nextChar :: rest2)).map (fun t => char :: t)
            | none => (composeFuel fuel (nextChar :: rest2)).map (fun t => char :: t)
        else
          (composeFuel fuel (nextChar :: rest2)).map (fun t => char :: t)
      | [] => (composeFuel fuel []).map (fun t => char :: t)
    else if isInitial char then
      match rest with
      | nextChar :: rest2 =>
        if isMedial nextChar then
          match rest2 with
          | thirdChar :: rest3 =>
            if isFinal thirdChar then
              if (match rest3 with | fourthChar :: _ => isMedial fourthChar | [] => false) then
                (composeFuel fuel (thirdChar :: rest3)).map
                  (fun t => composeHangulSyllable char nextChar none ++ t)
              else
                (composeFuel fuel rest3).map
                  (fun t => composeHangulSyllable char nextChar (some thirdChar) ++ t)
            else
              (composeFuel fuel (thirdChar :: rest3)).map
                (fun t => composeHangulSyllable char nextChar none ++ t)
          | [] =>
            (composeFuel fuel []).map
              (fun t => composeHangulSyllable char nextChar none ++ t)
        else
          (composeFuel fuel (nextChar :: rest2)).map (fun t => char :: t)
      | [] => (composeFuel fuel []).map (fun t => char :: t)
    else
      (composeFuel fuel rest).map (fun t => char :: t)

/-- The whole `ko` pipeline with every loop running on its iteration budget. -/
def transliterateKoFuel (text : List Char) : Option (List Char) :=
  if text.isEmpty then some []
  else
    (applyWordMapFuel text).bind (fun step1 =>
      (phoneticFuel step1.length step1).bind (fun step2 =>
        if step2.isEmpty then some [] else composeFuel step2.length step2))

/-! ### Basic helper lemmas -/

theorem includes_iff_infix {key s : List Char} : includes key s = true ↔ key <:+: s := by
  induction s with
  | nil =>
    simp only [includes, List.isPrefixOf_iff_prefix]
    constructor
    · intro h
      have : key = [] := List.prefix_nil.mp h
      simp [this]
    · intro h
      have : key = [] := List.eq_nil_of_infix_nil h
      simp [this]
  | cons c rest ih =>
    simp [includes, List.isPrefixOf_iff_prefix, ih, List.infix_cons_iff]

theorem mem_insertByLen {z x : List Char} {l : List (List Char)} :
    z ∈ insertByLen x l ↔ z = x ∨ z ∈ l := by
  induction l with
  | nil => simp [insertByLen]
  | cons y ys ih =>
    simp only [insertByLen]
    split
    · simp only [List.mem_cons, ih]
      tauto
    · simp only [List.mem_cons]

theorem insertByLen_perm (x : List Char) (l : List (List Char)) :
    (insertByLen x l).Perm (x :: l) := by
  induction l with
  | nil => simp [insertByLen]
  | cons y ys ih =>
    simp only [insertByLen]
    split
    · exact (ih.cons y).trans (List.Perm.swap x y ys)
    · exact List.Perm.refl _

theorem sortByLenDesc_perm (l : List (List Char)) : (sortByLenDesc l).Perm l := by
  induction l with
  | nil => exact List.Perm.refl _
  | cons x xs ih =>
    exact (insertByLen_perm x (sortByLenDesc xs)).trans (ih.cons x)

theorem insertByLen_pairwise {x : List Char} {l : List (List Char)}
    (h : l.Pairwise (fun a b => b.length ≤ a.length)) :
    (insertByLen x l).Pairwise (fun a b => b.length ≤ a.length) := by
  induction l with
  | nil => simp [insertByLen]
  | cons y ys ih =>
    rcases List.pairwise_cons.mp h with ⟨hy, hys⟩
    simp only [insertByLen]
    split
    · rename_i hlt
      refine List.pairwise_cons.mpr ⟨?_, ih hys⟩
      intro z hz
      rcases mem_insertByLen.mp hz with rfl | hzys
      · omega
      · exact hy z hzys
    · rename_i hge
      refine List.pairwise_cons.mpr ⟨?_, h⟩
      intro z hz
      rcases List.mem_cons.mp hz with rfl | hzys
      · omega
      · have := hy z hzys
        omega

theorem sortByLenDesc_pairwise (l : List (List Char)) :
    (sortByLenDesc l).Pairwise (fun a b => b.length ≤ a.length) := by
  induction l with
  | nil => simp [sortByLenDesc]
  | cons x xs ih => exact insertByLen_pairwise ih

theorem indexOfAux_spec {c : Char} {s : List Char} (h : c ∈ s) :
    ∃ i, indexOfAux c s = some i ∧ i < s.length ∧ s.get? i = some c := by
  induction s with
  | nil => cases h
  | cons x xs ih =>
    by_cases hx : x == c
    · refine ⟨0, by simp [indexOfAux, hx], by simp, ?_⟩
      simp [eq_of_beq hx]
    · have hc : c ∈ xs := by
        rcases List.mem_cons.mp h with rfl | hmem
        · simp at hx
        · exact hmem
      rcases ih hc with ⟨i, hi, hlen, hget⟩
      refine ⟨i + 1, by simp [indexOfAux, hx, hi], by simp; omega, by simpa using hget⟩

theorem strIndexOf_of_mem {c : Char} {s : List Char} (h : c ∈ s) :
    0 ≤ strIndexOf s c ∧ (strIndexOf s c).toNat < s.length ∧
      s.get? (strIndexOf s c).toNat = some c := by
  rcases indexOfAux_spec h with ⟨i, hi, hlen, hget⟩
  unfold strIndexOf
  rw [hi]
  refine ⟨Int.natCast_nonneg i, ?_, ?_⟩
  · simpa using hlen
  · simpa using hget

theorem char_toNat_ofNat {n : Nat} (h : n.isValidChar) : (Char.ofNat n).toNat = n := by
  simp [Char.ofNat, h, Char.ofNatAux, Char.toNat, UInt32.toNat, UInt32.ofNat']

theorem mem_of_isInitial {c : Char} (h : isInitial c = true) : c ∈ INITIALS := by
  simpa [isInitial] using h

theorem mem_of_isMedial {c : Char} (h : isMedial c = true) : c ∈ MEDIALS := by
  simpa [isMedial] using h

theorem isFinal_spec {c : Char} (h : isFinal c = true) :
    c ∈ FINALS ∧ c ≠ '\u0000' := by
  have h1 : c ≠ '\u0000' ∧ c ∈ FINALS := by simpa [isFinal, bne_iff_ne] using h
  exact ⟨h1.2, h1.1⟩

theorem isMedial_false_of_mem_initials {c : Char} (h : c ∈ INITIALS) :
    isMedial c = false := by
  revert c
  decide

/-! ### Facts about the concrete tables -/

theorem compounds_fst_ne_nil : ∀ p ∈ KATAKANA_COMPOUNDS, p.1 ≠ [] := by decide

set_option maxRecDepth 100000 in
theorem compounds_nonascii : ∀ p ∈ KATAKANA_COMPOUNDS, ∃ c ∈ p.1, 128 ≤ c.toNat := by decide

set_option maxRecDepth 1000000 in
theorem wm_keys_nonascii : ∀ k ∈ WORD_MAP.map Prod.fst, ∃ c ∈ k, 128 ≤ c.toNat := by decide

set_option maxRecDepth 1000000 in
theorem katakana_single_keys_nonascii : ∀ e ∈ KATAKANA_SINGLE, 128 ≤ e.1.toNat := by decide

set_option maxRecDepth 1000000 in
theorem hiragana_single_keys_nonascii : ∀ e ∈ HIRAGANA_SINGLE, 128 ≤ e.1.toNat := by decide

set_option maxRecDepth 1000000 in
theorem kanji_map_keys_nonascii : ∀ e ∈ KANJI_MAP, 128 ≤ e.1.toNat := by decide

theorem initials_nonascii : ∀ c ∈ INITIALS, 128 ≤ c.toNat := by decide

theorem initials_below_base : ∀ c ∈ INITIALS, c.toNat < 0xAC00 := by decide

/-! ### Agreement between the loops and their fuel-indexed mirrors -/

theorem replaceAllFuel_eq (key val : List Char) :
    ∀ (fuel : Nat) (s : List Char), s.length ≤ fuel →
      replaceAllFuel key val fuel s = some (replaceAll key val s) := by
  intro fuel
  induction fuel with
  | zero =>
    intro s hs
    have hnil : s = [] := List.eq_nil_of_length_eq_zero (Nat.le_zero.mp hs)
    subst hnil
    simp [replaceAllFuel, replaceAll]
  | succ n ih =>
    intro s hs
    match s with
    | [] => simp [replaceAllFuel, replaceAll]
    | c :: rest =>
      simp only [List.length_cons] at hs
      by_cases h : key ≠ [] ∧ key.isPrefixOf (c :: rest)
      · have hklen : 0 < key.length := List.length_pos.mpr h.1
        have hdrop : ((c :: rest).drop key.length).length ≤ n := by
          simp only [List.length_drop, List.length_cons]
          omega
        simp only [replaceAllFuel, replaceAll]
        rw [if_pos h, dif_pos h, ih _ hdrop]
        rfl
      · have hrest : rest.length ≤ n := by omega
        simp only [replaceAllFuel, replaceAll]
        rw [if_neg h, dif_neg h, ih _ hrest]
        rfl

theorem wordFoldFuel_eq (keys : List (List Char)) :
    ∀ s : List Char,
      keys.foldl
        (fun acc key =>
          acc.bind (fun result =>
            if includes key result then replaceAllFuel key (wordMapGet key) result.length result
            else some result))
        (some s)
      = some (keys.foldl
          (fun result key =>
            if includes key result then replaceAll key (wordMapGet key) result else result) s) := by
  induction keys with
  | nil => intro s; rfl
  | cons k ks ih =>
    intro s
    rw [List.foldl_cons, List.foldl_cons]
    have hstep :
        (some s).bind (fun result =>
          if includes k result then replaceAllFuel k (wordMapGet k) result.length result
          else some result)
        = some (if includes k s then replaceAll k (wordMapGet k) s else s) := by
      simp only [Option.some_bind]
      by_cases hk : includes k s
      · rw [if_pos hk, if_pos hk, replaceAllFuel_eq k (wordMapGet k) s.length s (le_refl _)]
      · rw [if_neg hk, if_neg hk]
    rw [hstep]
    exact ih _

theorem applyWordMapFuel_eq (text : List Char) :
    applyWordMapFuel text = some (applyWordMap text) :=
  wordFoldFuel_eq WORD_MAP_KEYS text

theorem phoneticFuel_eq :
    ∀ (fuel : Nat) (s : List Char), s.length ≤ fuel →
      phoneticFuel fuel s = some (phoneticGo s) := by
  intro fuel
  induction fuel with
  | zero =>
    intro s hs
    have hnil : s = [] := List.eq_nil_of_length_eq_zero (Nat.le_zero.mp hs)
    subst hnil
    simp [phoneticFuel, phoneticGo]
  | succ n ih =>
    intro s hs
    match s with
    | [] => simp [phoneticFuel, phoneticGo]
    | char :: rest =>
      simp only [List.length_cons] at hs
      have hrest : rest.length ≤ n := by omega
      cases hfc : findCompound (char :: rest) with
      | some p =>
        have hne : p.1 ≠ [] := compounds_fst_ne_nil p (List.mem_of_find?_eq_some hfc)
        have hpos : 0 < p.1.length := List.length_pos.mpr hne
        have hlen : ((char :: rest).drop p.1.length).length ≤ n := by
          simp only [List.length_drop, List.length_cons]
          omega
        have hgo : phoneticGo (char :: rest) =
            p.2 ++ phoneticGo ((char :: rest).drop p.1.length) := by
          simp only [phoneticGo]
          split
          · rename_i p2 heq
            rw [hfc] at heq
            injection heq with heq2
            subst heq2
            rfl
          · rename_i heq
            rw [hfc] at heq
            exact absurd heq (by simp)
        rw [hgo]
        simp only [phoneticFuel, hfc]
        rw [ih _ hlen]
        rfl
      | none =>
        have hgo : phoneticGo (char :: rest) =
            (if char = 'ー' then phoneticGo rest
             else if truthy (tableGet KATAKANA_SINGLE char) then
               (tableGet KATAKANA_SINGLE char).getD [] ++ phoneticGo rest
             else if truthy (tableGet HIRAGANA_SINGLE char) then
               (tableGet HIRAGANA_SINGLE char).getD [] ++ phoneticGo rest
             else if truthy (tableGet KANJI_MAP char) then
               (tableGet KANJI_MAP char).getD [] ++ phoneticGo rest
             else char :: phoneticGo rest) := by
          simp only [phoneticGo]
          split
          · rename_i p2 heq
            rw [hfc] at heq
            exact absurd heq (by simp)
          · rfl
        rw [hgo]
        simp only [phoneticFuel, hfc]
        rw [ih _ hrest]
        by_cases h1 : char = 'ー'
        · rw [if_pos h1, if_pos h1]
        · rw [if_neg h1, if_neg h1]
          by_cases h2 : truthy (tableGet KATAKANA_SINGLE char) = true
          · rw [if_pos h2, if_pos h2]
            rfl
          · rw [if_neg h2, if_neg h2]
            by_cases h3 : truthy (tableGet HIRAGANA_SINGLE char) = true
            · rw [if_pos h3, if_pos h3]
              rfl
            · rw [if_neg h3, if_neg h3]
              by_cases h4 : truthy (tableGet KANJI_MAP char) = true
              · rw [if_pos h4, if_pos h4]
                rfl
              · rw [if_neg h4, if_neg h4]
                rfl

theorem composeFuel_eq :
    ∀ (fuel : Nat) (s : List Char), s.length ≤ fuel →
      composeFuel fuel s = some (composeHangulGo s) := by
  intro fuel
  induction fuel with
  | zero =>
    intro s hs
    have hnil : s = [] := List.eq_nil_of_length_eq_zero (Nat.le_zero.mp hs)
    subst hnil
    rw [composeFuel.eq_1, composeHangulGo.eq_1]
  | succ n ih =>
    intro s hs
    match s with
    | [] => rw [composeFuel.eq_1, composeHangulGo.eq_1]
    | [c1] =>
      have i0 := ih [] (by simp)
      rw [composeFuel.eq_6, composeHangulGo.eq_5]
      simp only [i0, Option.map_some', apply_ite some]
    | [c1, c2] =>
      simp only [List.length_cons] at hs
      have i0 := ih [] (by simp)
      have i1 := ih [c2] (by simp only [List.length_cons]; omega)
      rw [composeFuel.eq_5, composeHangulGo.eq_4]
      cases hdec : decomposeHangul c1 with
      | some d => simp only [hdec, i0, i1, Option.map_some', apply_ite some]
      | none => simp only [hdec, i0, i1, Option.map_some', apply_ite some]
    | [c1, c2, c3] =>
      simp only [List.length_cons] at hs
      have i0 := ih [] (by simp)
      have i1 := ih [c3] (by simp only [List.length_cons]; omega)
      have i2 := ih [c2, c3] (by simp only [List.length_cons]; omega)
      rw [composeFuel.eq_4, composeHangulGo.eq_3]
      cases hdec : decomposeHangul c1 with
      | some d => simp only [hdec, i0, i1, i2, Option.map_some', apply_ite some]
      | none => simp only [hdec, i0, i1, i2, Option.map_some', apply_ite some]
    | c1 :: c2 :: c3 :: c4 :: rest =>
      simp only [List.length_cons] at hs
      have i1 := ih (c2 :: c3 :: c4 :: rest) (by simp only [List.length_cons]; omega)
      have i2 := ih (c3 :: c4 :: rest) (by simp only [List.length_cons]; omega)
      have i3 := ih (c4 :: rest) (by simp only [List.length_cons]; omega)
      rw [composeFuel.eq_3, composeHangulGo.eq_2]
      cases hdec : decomposeHangul c1 with
      | some d => simp only [hdec, i1, i2, i3, Option.map_some', apply_ite some]
      | none => simp only [hdec, i1, i2, i3, Option.map_some', apply_ite some]

theorem transliterateKoFuel_eq (text : List Char) :
    transliterateKoFuel text = some (transliterate text Lang.ko) := by
  unfold transliterateKoFuel transliterate
  by_cases ht : text.isEmpty
  · rw [if_pos ht, if_pos ht]
  · rw [if_neg ht, if_neg ht]
    rw [if_neg (by decide : ¬(Lang.ko = Lang.ja))]
    rw [applyWordMapFuel_eq, Option.some_bind]
    rw [phoneticFuel_eq _ _ (le_refl _), Option.some_bind]
    unfold composeHangul
    by_cases h2 : (phoneticGo (applyWordMap text)).isEmpty
    · rw [if_pos h2, if_pos h2]
    · rw [if_neg h2, if_neg h2]
      exact composeFuel_eq _ _ (le_refl _)

/-! ### Evaluation helpers: compute the engine through its fuel mirror -/

theorem transliterate_ko_eval {x y : List Char} (h : transliterateKoFuel x = some y) :
    transliterate x Lang.ko = y :=
  Option.some_inj.mp ((transliterateKoFuel_eq x).symm.trans h)

theorem phoneticGo_eval {x y : List Char} (h : phoneticFuel x.length x = some y) :
    phoneticGo x = y :=
  Option.some_inj.mp ((phoneticFuel_eq x.length x (le_refl _)).symm.trans h)

theorem applyWordMap_eval {x y : List Char} (h : applyWordMapFuel x = some y) :
    applyWordMap x = y :=
  Option.some_inj.mp ((applyWordMapFuel_eq x).symm.trans h)

/-- One-step unfolding of `phoneticGo` when no katakana compound matches. -/
theorem phoneticGo_cons_none {char : Char} {rest : List Char}
    (hfc : findCompound (char :: rest) = none) :
    phoneticGo (char :: rest) =
      (if char = 'ー' then phoneticGo rest
       else if truthy (tableGet KATAKANA_SINGLE char) then
         (tableGet KATAKANA_SINGLE char).getD [] ++ phoneticGo rest
       else if truthy (tableGet HIRAGANA_SINGLE char) then
         (tableGet HIRAGANA_SINGLE char).getD [] ++ phoneticGo rest
       else if truthy (tableGet KANJI_MAP char) then
         (tableGet KANJI_MAP char).getD [] ++ phoneticGo rest
       else char :: phoneticGo rest) := by
  simp only [phoneticGo]
  split
  · rename_i p2 heq
    rw [hfc] at heq
    exact absurd heq (by simp)
  · rfl

/-- One-step unfolding of `phoneticGo` on a katakana compound match. -/
theorem phoneticGo_cons_some {char : Char} {rest : List Char} {p : List Char × List Char}
    (hfc : findCompound (char :: rest) = some p) :
    phoneticGo (char :: rest) = p.2 ++ phoneticGo ((char :: rest).drop p.1.length) := by
  simp only [phoneticGo]
  split
  · rename_i p2 heq
    rw [hfc] at heq
    injection heq with heq2
    subst heq2
    rfl
  · rename_i heq
    rw [hfc] at heq
    exact absurd heq (by simp)

/-! ### ASCII pass-through lemmas -/

theorem includes_false_of_nonascii {key s : List Char}
    (hk : ∃ c ∈ key, 128 ≤ c.toNat) (hs : ∀ c ∈ s, c.toNat < 128) :
    includes key s = false := by
  cases h : includes key s
  · rfl
  · have hinf : key <:+: s := includes_iff_infix.mp h
    rcases hk with ⟨c, hck, hc⟩
    have := hs c (hinf.subset hck)
    omega

theorem wordFold_fixed {keys : List (List Char)} {s : List Char}
    (h : ∀ k ∈ keys, includes k s = false) :
    keys.foldl
      (fun result key =>
        if includes key result then replaceAll key (wordMapGet key) result else result) s
      = s := by
  induction keys with
  | nil => rfl
  | cons k ks ih =>
    rw [List.foldl_cons, if_neg (by simp [h k (List.mem_cons_self _ _)])]
    exact ih (fun k2 hk2 => h k2 (List.mem_cons_of_mem _ hk2))

theorem applyWordMap_ascii {s : List Char} (hs : ∀ c ∈ s, c.toNat < 128) :
    applyWordMap s = s := by
  unfold applyWordMap
  apply wordFold_fixed
  intro k hk
  have hk2 : k ∈ WORD_MAP.map Prod.fst := by
    have hperm := sortByLenDesc_perm (WORD_MAP.map Prod.fst)
    unfold WORD_MAP_KEYS at hk
    exact hperm.mem_iff.mp hk
  exact includes_false_of_nonascii (wm_keys_nonascii k hk2) hs

theorem tableGet_none_of_ascii {t : List (Char × List Char)}
    (ht : ∀ e ∈ t, 128 ≤ e.1.toNat) {c : Char} (hc : c.toNat < 128) :
    tableGet t c = none := by
  unfold tableGet
  cases hf : t.find? (fun e => e.1 == c) with
  | none => rfl
  | some e =>
    have hmem := List.mem_of_find?_eq_some hf
    have hbeq : (e.1 == c) = true := by simpa using List.find?_some hf
    have heq : e.1 = c := eq_of_beq hbeq
    have := ht e hmem
    rw [heq] at this
    omega

theorem findCompound_none_of_ascii {s : List Char} (hs : ∀ c ∈ s, c.toNat < 128) :
    findCompound s = none := by
  unfold findCompound
  rw [List.find?_eq_none]
  intro p hp hpre
  rcases compounds_nonascii p hp with ⟨c, hcp, hc⟩
  have := hs c ((List.isPrefixOf_iff_prefix.mp hpre).subset hcp)
  omega

theorem phoneticGo_ascii {s : List Char} (hs : ∀ c ∈ s, c.toNat < 128) :
    phoneticGo s = s := by
  induction s with
  | nil => rw [phoneticGo.eq_1]
  | cons c rest ih =>
    have hc : c.toNat < 128 := hs c (List.mem_cons_self c rest)
    have hrest : ∀ x ∈ rest, x.toNat < 128 := fun x hx => hs x (List.mem_cons_of_mem c hx)
    have h1 : tableGet KATAKANA_SINGLE c = none :=
      tableGet_none_of_ascii katakana_single_keys_nonascii hc
    have h2 : tableGet HIRAGANA_SINGLE c = none :=
      tableGet_none_of_ascii hiragana_single_keys_nonascii hc
    have h3 : tableGet KANJI_MAP c = none :=
      tableGet_none_of_ascii kanji_map_keys_nonascii hc
    have hdash : ¬(c = 'ー') := by
      intro h
      subst h
      exact absurd hc (by decide)
    have hf : truthy (none : Option (List Char)) ≠ true := by decide
    rw [phoneticGo_cons_none (findCompound_none_of_ascii hs), if_neg hdash, h1, h2, h3,
      if_neg hf, if_neg hf, if_neg hf, ih hrest]

theorem isHangulSyllable_false_of_ascii {c : Char} (hc : c.toNat < 128) :
    isHangulSyllable c = false := by
  cases h : isHangulSyllable c
  · rfl
  · have h2 : HANGUL_BASE ≤ c.toNat ∧ c.toNat ≤ HANGUL_BASE + 11171 := by
      simpa [isHangulSyllable] using h
    unfold HANGUL_BASE at h2
    omega

theorem isInitial_false_of_ascii {c : Char} (hc : c.toNat < 128) :
    isInitial c = false := by
  cases h : isInitial c
  · rfl
  · have := initials_nonascii c (mem_of_isInitial h)
    omega

theorem composeFuel_ascii :
    ∀ (fuel : Nat) (s : List Char), (∀ c ∈ s, c.toNat < 128) → s.length ≤ fuel →
      composeFuel fuel s = some s := by
  intro fuel
  induction fuel with
  | zero =>
    intro s hs hl
    have hnil : s = [] := List.eq_nil_of_length_eq_zero (Nat.le_zero.mp hl)
    subst hnil
    rw [composeFuel.eq_1]
  | succ n ih =>
    intro s hs hl
    have hstep : ∀ c1 : Char, c1 ∈ s →
        isHangulSyllable c1 = false ∧ isInitial c1 = false := fun c1 hc1 =>
      ⟨isHangulSyllable_false_of_ascii (hs c1 hc1), isInitial_false_of_ascii (hs c1 hc1)⟩
    match s, hs, hl with
    | [], _, _ => rw [composeFuel.eq_1]
    | [c1], hs, hl =>
      rcases hstep c1 (by simp) with ⟨hsyl, hini⟩
      rw [composeFuel.eq_6]
      simp [hsyl, hini, composeFuel.eq_1]
    | [c1, c2], hs, hl =>
      rcases hstep c1 (by simp) with ⟨hsyl, hini⟩
      have itail := ih [c2] (fun c hc => hs c (List.mem_cons_of_mem _ hc))
        (by simp only [List.length_cons] at hl ⊢; omega)
      rw [composeFuel.eq_5]
      simp [hsyl, hini, itail]
    | [c1, c2, c3], hs, hl =>
      rcases hstep c1 (by simp) with ⟨hsyl, hini⟩
      have itail := ih [c2, c3] (fun c hc => hs c (List.mem_cons_of_mem _ hc))
        (by simp only [List.length_cons] at hl ⊢; omega)
      rw [composeFuel.eq_4]
      simp [hsyl, hini, itail]
    | c1 :: c2 :: c3 :: c4 :: rest, hs, hl =>
      rcases hstep c1 (by simp) with ⟨hsyl, hini⟩
      have itail := ih (c2 :: c3 :: c4 :: rest) (fun c hc => hs c (List.mem_cons_of_mem _ hc))
        (by simp only [List.length_cons] at hl ⊢; omega)
      rw [composeFuel.eq_3]
      simp [hsyl, hini, itail]

theorem composeGo_ascii {s : List Char} (hs : ∀ c ∈ s, c.toNat < 128) :
    composeHangulGo s = s :=
  Option.some_inj.mp
    ((composeFuel_eq s.length s (le_refl _)).symm.trans
      (composeFuel_ascii s.length s hs (le_refl _)))

/-! ### Composition formula lemmas -/

theorem isHangulSyllable_false_of_initial {c : Char} (h : c ∈ INITIALS) :
    isHangulSyllable c = false := by
  cases hc : isHangulSyllable c
  · rfl
  · have h2 : HANGUL_BASE ≤ c.toNat ∧ c.toNat ≤ HANGUL_BASE + 11171 := by
      simpa [isHangulSyllable] using hc
    have := initials_below_base c h
    unfold HANGUL_BASE at h2
    omega

theorem composeHangulSyllable_some_eq {ci cm cf : Char}
    (hi : ci ∈ INITIALS) (hm : cm ∈ MEDIALS) (hf : cf ∈ FINALS) :
    composeHangulSyllable ci cm (some cf) =
      [Char.ofNat (HANGUL_BASE +
        ((strIndexOf INITIALS ci).toNat * MEDIAL_COUNT +
          (strIndexOf MEDIALS cm).toNat) * FINAL_COUNT +
        (strIndexOf FINALS cf).toNat)] := by
  have h1 := (strIndexOf_of_mem hi).1
  have h2 := (strIndexOf_of_mem hm).1
  have h3 := (strIndexOf_of_mem hf).1
  simp only [composeHangulSyllable]
  rw [if_neg (by omega)]

theorem composeHangulSyllable_none_eq {ci cm : Char}
    (hi : ci ∈ INITIALS) (hm : cm ∈ MEDIALS) :
    composeHangulSyllable ci cm none =
      [Char.ofNat (HANGUL_BASE +
        ((strIndexOf INITIALS ci).toNat * MEDIAL_COUNT +
          (strIndexOf MEDIALS cm).toNat) * FINAL_COUNT)] := by
  have h1 := (strIndexOf_of_mem hi).1
  have h2 := (strIndexOf_of_mem hm).1
  simp only [composeHangulSyllable]
  rw [if_neg (by omega)]
  norm_num

/-! ### Position lemma for a length-sorted list -/

theorem posOf_lt_of_sorted {l : List (List Char)}
    (hp : l.Pairwise (fun a b => b.length ≤ a.length))
    {k1 k2 : List Char} (h1 : k1 ∈ l) (hlt : k2.length < k1.length) :
    posOf k1 l < posOf k2 l := by
  induction l with
  | nil => cases h1
  | cons x xs ih =>
    rcases List.pairwise_cons.mp hp with ⟨hx, hxs⟩
    simp only [posOf]
    by_cases e1 : x == k1
    · rw [if_pos e1]
      by_cases e2 : x == k2
      · have hk : k1 = k2 := (eq_of_beq e1).symm.trans (eq_of_beq e2)
        rw [hk] at hlt
        omega
      · rw [if_neg e2]
        omega
    · rw [if_neg e1]
      have hk1 : k1 ∈ xs := by
        rcases List.mem_cons.mp h1 with rfl | h
        · exact absurd (beq_self_eq_true k1) e1
        · exact h
      by_cases e2 : x == k2
      · have hxk2 : x = k2 := eq_of_beq e2
        have hle := hx k1 hk1
        rw [hxk2] at hle
        omega
      · rw [if_neg e2]
        have := ih hxs hk1
        omega

/-- Decomposing a syllable code produced by the composition formula recovers
the three indices. -/
theorem decomposeHangul_code (ii mi fi : Nat)
    (h19 : ii < 19) (h21 : mi < 21) (h28 : fi < 28) :
    decomposeHangul (Char.ofNat (HANGUL_BASE + (ii * MEDIAL_COUNT + mi) * FINAL_COUNT + fi)) =
      some ⟨(INITIALS.get? ii).getD '\u0000', (MEDIALS.get? mi).getD '\u0000',
            if fi = 0 then none else some ((FINALS.get? fi).getD '\u0000')⟩ := by
  have hval : (HANGUL_BASE + (ii * MEDIAL_COUNT + mi) * FINAL_COUNT + fi).isValidChar := by
    left
    unfold HANGUL_BASE MEDIAL_COUNT FINAL_COUNT
    omega
  have htn := char_toNat_ofNat hval
  simp only [decomposeHangul]
  rw [htn]
  rw [if_neg (by unfold HANGUL_BASE MEDIAL_COUNT FINAL_COUNT; omega)]
  have e1 : (HANGUL_BASE + (ii * MEDIAL_COUNT + mi) * FINAL_COUNT + fi - HANGUL_BASE) /
      (MEDIAL_COUNT * FINAL_COUNT) = ii := by
    unfold HANGUL_BASE MEDIAL_COUNT FINAL_COUNT
    omega
  have e2 : (HANGUL_BASE + (ii * MEDIAL_COUNT + mi) * FINAL_COUNT + fi - HANGUL_BASE) %
      (MEDIAL_COUNT * FINAL_COUNT) / FINAL_COUNT = mi := by
    unfold HANGUL_BASE MEDIAL_COUNT FINAL_COUNT
    omega
  have e3 : (HANGUL_BASE + (ii * MEDIAL_COUNT + mi) * FINAL_COUNT + fi - HANGUL_BASE) %
      FINAL_COUNT = fi := by
    unfold HANGUL_BASE MEDIAL_COUNT FINAL_COUNT
    omega
  rw [e1, e2, e3]

/-! ### Claims -/

/-- Claim C1: for every string `x`, `transliterate x Lang.ja` returns exactly
`x` — the strict identity law for the pass-through language, including the
empty string. -/
theorem C1_ja_identity (x : List Char) : transliterate x Lang.ja = x := by
  cases x with
  | nil => rfl
  | cons c cs => simp [transliterate]

/-- Claim C2: totality of the `ko` pipeline.  Each `while` loop advances its
cursor on every iteration, so running the dictionary pass, the phonetic scan
and `composeHangul` with an iteration budget equal to the length of the
scanned string (`transliterateKoFuel`) never exhausts the budget and returns
exactly `transliterate x Lang.ko` — for every string, with no error path. -/
theorem C2_ko_total (x : List Char) :
    transliterateKoFuel x = some (transliterate x Lang.ko) :=
  transliterateKoFuel_eq x

/-- Claim C3: the dictionary stage tries keys in descending length order —
`WORD_MAP_KEYS` (the key list folded over by `applyWordMap` with one global
`replaceAll` per key) is a permutation of the dictionary keys sorted by
decreasing length — and consequently, for any two keys where `k2` is a
proper substring of `k1`, `k1` is processed strictly before `k2`. -/
theorem C3_dict_precedence :
    WORD_MAP_KEYS.Pairwise (fun a b => b.length ≤ a.length) ∧
    WORD_MAP_KEYS.Perm (WORD_MAP.map Prod.fst) ∧
    ∀ k1 k2 : List Char, k1 ∈ WORD_MAP_KEYS → k2 ∈ WORD_MAP_KEYS →
      k2 <:+: k1 → k2 ≠ k1 →
      posOf k1 WORD_MAP_KEYS < posOf k2 WORD_MAP_KEYS := by
  refine ⟨sortByLenDesc_pairwise _, sortByLenDesc_perm _, ?_⟩
  intro k1 k2 h1 h2 hinf hne
  have hlen : k2.length < k1.length := by
    rcases Nat.lt_or_eq_of_le hinf.length_le with h | h
    · exact h
    · exact absurd (hinf.eq_of_length h) hne
  exact posOf_lt_of_sorted (sortByLenDesc_pairwise _) h1 hlen

set_option maxRecDepth 2000000 in
/-- Witness for C3 at the concrete pair `東京駅` (longer) and `東京` (its
proper substring). -/
theorem C3_witness :
    posOf "東京駅".toList WORD_MAP_KEYS < posOf "東京".toList WORD_MAP_KEYS :=
  C3_dict_precedence.2.2 "東京駅".toList "東京".toList (by decide) (by decide)
    (by decide) (by decide)

/-- Claim C4: a valid initial, a valid medial and a valid final jamo followed
by end of input or a non-medial character compose into the single precomposed
syllable `BASE + (initialIndex * 21 + medialIndex) * 28 + finalIndex`, each
index being the jamo's position in its fixed table. -/
theorem C4_compose_formula (ci cm cf : Char) (rest : List Char)
    (hi : isInitial ci = true) (hm : isMedial cm = true) (hf : isFinal cf = true)
    (hrest : ∀ r, rest.head? = some r → isMedial r = false) :
    composeHangulGo (ci :: cm :: cf :: rest) =
      Char.ofNat (HANGUL_BASE +
        ((strIndexOf INITIALS ci).toNat * MEDIAL_COUNT +
          (strIndexOf MEDIALS cm).toNat) * FINAL_COUNT +
        (strIndexOf FINALS cf).toNat) :: composeHangulGo rest := by
  have hi2 := mem_of_isInitial hi
  have hm2 := mem_of_isMedial hm
  have hf2 := (isFinal_spec hf).1
  have hsyl := isHangulSyllable_false_of_initial hi2
  cases rest with
  | nil =>
    rw [composeHangulGo.eq_3]
    rw [if_neg (by simp [hsyl]), if_pos hi, if_pos hm, if_pos hf, if_neg (by simp)]
    rw [composeHangulSyllable_some_eq hi2 hm2 hf2]
    rfl
  | cons r rs =>
    have hr : isMedial r = false := hrest r rfl
    rw [composeHangulGo.eq_2]
    rw [if_neg (by simp [hsyl]), if_pos hi, if_pos hm, if_pos hf, if_neg (by simp [hr])]
    rw [composeHangulSyllable_some_eq hi2 hm2 hf2]
    rfl

/-- Witness for C4 at `ㄱ`, `ㅏ`, `ㄱ` with empty rest (composing to `각`). -/
theorem C4_witness :
    composeHangulGo ('ㄱ' :: 'ㅏ' :: 'ㄱ' :: []) =
      Char.ofNat (HANGUL_BASE +
        ((strIndexOf INITIALS 'ㄱ').toNat * MEDIAL_COUNT +
          (strIndexOf MEDIALS 'ㅏ').toNat) * FINAL_COUNT +
        (strIndexOf FINALS 'ㄱ').toNat) :: composeHangulGo [] :=
  C4_compose_formula 'ㄱ' 'ㅏ' 'ㄱ' [] (by decide) (by decide) (by decide)
    (fun r hr => by simp at hr)

/-- Claim C5: in the four-jamo configuration initial + medial + candidate
final + medial, the candidate final is not consumed as a batchim: the first
two jamo are emitted as an initial+medial syllable (no final) and the scan
restarts at the candidate final, which begins the next syllable. -/
theorem C5_lookahead (ci cm cf cm2 : Char) (rest : List Char)
    (hi : isInitial ci = true) (hm : isMedial cm = true) (hf : isFinal cf = true)
    (hm2 : isMedial cm2 = true) :
    composeHangulGo (ci :: cm :: cf :: cm2 :: rest) =
      Char.ofNat (HANGUL_BASE +
        ((strIndexOf INITIALS ci).toNat * MEDIAL_COUNT +
          (strIndexOf MEDIALS cm).toNat) * FINAL_COUNT) ::
        composeHangulGo (cf :: cm2 :: rest) := by
  have hi2 := mem_of_isInitial hi
  have hmm := mem_of_isMedial hm
  have hsyl := isHangulSyllable_false_of_initial hi2
  rw [composeHangulGo.eq_2]
  rw [if_neg (by simp [hsyl]), if_pos hi, if_pos hm, if_pos hf, if_pos hm2]
  rw [composeHangulSyllable_none_eq hi2 hmm]
  rfl

/-- Witness for C5 at `ㄱㅏㄴㅏ` (composing to `가` with `ㄴ` starting the
next syllable, i.e. `가나` overall). -/
theorem C5_witness :
    composeHangulGo ('ㄱ' :: 'ㅏ' :: 'ㄴ' :: 'ㅏ' :: []) =
      Char.ofNat (HANGUL_BASE +
        ((strIndexOf INITIALS 'ㄱ').toNat * MEDIAL_COUNT +
          (strIndexOf MEDIALS 'ㅏ').toNat) * FINAL_COUNT) ::
        composeHangulGo ('ㄴ' :: 'ㅏ' :: []) :=
  C5_lookahead 'ㄱ' 'ㅏ' 'ㄴ' 'ㅏ' [] (by decide) (by decide) (by decide) (by decide)

set_option maxRecDepth 2000000 in
/-- Claim C6 counterexample: `ッ` is a key of the single-katakana table
(mapped to the empty string), is reached without a compound match and is not
the prolonged-sound marker, yet the engine does not emit the mapped value:
the JS truthiness test rejects the empty string, so `ッ` falls through and
passes through unchanged instead of being deleted. -/
theorem C6_counterexample :
    tableGet KATAKANA_SINGLE 'ッ' = some [] ∧
    findCompound ['ッ'] = none ∧
    phoneticGo ['ッ'] = ['ッ'] ∧
    transliterate ['ッ'] Lang.ko = ['ッ'] :=
  ⟨by decide, by decide, phoneticGo_eval (by decide), transliterate_ko_eval (by decide)⟩

/-- Claim C6 (amended): for a character in the single-katakana table whose
mapped value is non-empty, reached without a compound match and distinct from
the prolonged-sound marker, the engine emits the mapped value and advances by
one; entries mapped to the empty string (`ッ`) fail the truthiness test and
fall through. -/
theorem C6_single_katakana (c : Char) (rest v : List Char)
    (hfc : findCompound (c :: rest) = none) (hdash : c ≠ 'ー')
    (hget : tableGet KATAKANA_SINGLE c = some v) (hv : v ≠ []) :
    phoneticGo (c :: rest) = v ++ phoneticGo rest := by
  rw [phoneticGo_cons_none hfc, if_neg hdash, hget]
  rw [if_pos (by simp [truthy, hv])]
  rfl

/-- Witness for the amended C6 at `ア` (mapped to `아`). -/
theorem C6_witness :
    phoneticGo ('ア' :: []) = "아".toList ++ phoneticGo [] :=
  C6_single_katakana 'ア' [] "아".toList (by decide) (by decide) (by decide) (by decide)

set_option maxRecDepth 2000000 in
/-- Claim C7 counterexample: `東京都` is not a dictionary key (no dictionary
match covers all three characters), and the dictionary stage alone yields
`도쿄都`, leaving `都` to a later stage — contradicting the claimed mechanism. -/
theorem C7_counterexample :
    "東京都".toList ∉ WORD_MAP_KEYS ∧
    applyWordMap "東京都".toList = "도쿄都".toList :=
  ⟨by decide, applyWordMap_eval (by decide)⟩

set_option maxRecDepth 2000000 in
/-- Claim C7 (amended): `transliterate "東京都" ko` does return `도쿄도`, but
via the two-character dictionary entry `東京 → 도쿄` plus the kanji fallback
`都 → 도`, not via a three-character dictionary match. -/
theorem C7_amended :
    transliterate "東京都".toList Lang.ko = "도쿄도".toList ∧
    tableGet KANJI_MAP '都' = some "도".toList :=
  ⟨transliterate_ko_eval (by decide), by decide⟩

/-- Claim C8: a string all of whose characters are ASCII and non-alphabetic —
in particular any string of ASCII digits and Latin punctuation such as
`10:00-12:00` — is returned unchanged by the `ko` transform: no dictionary
key, kana table, kanji table or jamo check matches ASCII characters. -/
theorem C8_ascii_passthrough (s : List Char)
    (hs : ∀ c ∈ s, c.toNat < 128 ∧ ¬c.isAlpha) :
    transliterate s Lang.ko = s := by
  have hs2 : ∀ c ∈ s, c.toNat < 128 := fun c hc => (hs c hc).1
  unfold transliterate
  by_cases he : s.isEmpty
  · rw [if_pos he]
    exact (List.isEmpty_iff.mp he).symm
  · rw [if_neg he, if_neg (by decide : ¬(Lang.ko = Lang.ja))]
    rw [applyWordMap_ascii hs2, phoneticGo_ascii hs2]
    unfold composeHangul
    rw [if_neg he, composeGo_ascii hs2]

/-- Witness for C8 at `10:00-12:00`. -/
theorem C8_witness :
    transliterate "10:00-12:00".toList Lang.ko = "10:00-12:00".toList :=
  C8_ascii_passthrough _ (by decide)

set_option maxRecDepth 2000000 in
/-- Claim C9: `transliterate · ko` is not idempotent.  Witness `難ー波`: the
first pass only deletes the prolonged-sound marker (neither kanji is in any
table), yielding `難波`, which is itself a dictionary key, so a second pass
rewrites it to `난바`. -/
theorem C9_not_idempotent :
    ∃ x : List Char,
      transliterate (transliterate x Lang.ko) Lang.ko ≠ transliterate x Lang.ko := by
  refine ⟨"難ー波".toList, ?_⟩
  have h1 : transliterate "難ー波".toList Lang.ko = "難波".toList :=
    transliterate_ko_eval (by decide)
  have h2 : transliterate "難波".toList Lang.ko = "난바".toList :=
    transliterate_ko_eval (by decide)
  rw [h1, h2]
  decide

/-- Claim C10: round trip of the jamo composition utilities — composing any
valid initial and medial with either no final or a valid non-null final
yields a single syllable character that decomposes back to exactly those
jamos. -/
theorem C10_roundtrip (ci cm : Char) (f : Option Char)
    (hi : ci ∈ INITIALS) (hm : cm ∈ MEDIALS)
    (hf : ∀ cf, f = some cf → cf ∈ FINALS ∧ cf ≠ '\u0000') :
    ∃ c : Char, composeHangulSyllable ci cm f = [c] ∧
      decomposeHangul c = some ⟨ci, cm, f⟩ := by
  rcases strIndexOf_of_mem hi with ⟨hi0, hilen, higet⟩
  rcases strIndexOf_of_mem hm with ⟨hm0, hmlen, hmget⟩
  have hIlen : INITIALS.length = 19 := by decide
  have hMlen : MEDIALS.length = 21 := by decide
  have hFlen : FINALS.length = 28 := by decide
  cases f with
  | none =>
    refine ⟨_, composeHangulSyllable_none_eq hi hm, ?_⟩
    have hd := decomposeHangul_code (strIndexOf INITIALS ci).toNat
      (strIndexOf MEDIALS cm).toNat 0 (by omega) (by omega) (by omega)
    rw [Nat.add_zero] at hd
    rw [hd, higet, hmget]
    rfl
  | some cf =>
    rcases hf cf rfl with ⟨hcf, hcfne⟩
    rcases strIndexOf_of_mem hcf with ⟨hf0, hflen, hfget⟩
    have hfne0 : (strIndexOf FINALS cf).toNat ≠ 0 := by
      intro h0
      rw [h0] at hfget
      have hz : FINALS.get? 0 = some '\u0000' := by decide
      rw [hz] at hfget
      exact hcfne (Option.some_inj.mp hfget).symm
    refine ⟨_, composeHangulSyllable_some_eq hi hm hcf, ?_⟩
    have hd := decomposeHangul_code (strIndexOf INITIALS ci).toNat
      (strIndexOf MEDIALS cm).toNat (strIndexOf FINALS cf).toNat
      (by omega) (by omega) (by omega)
    rw [hd, higet, hmget, if_neg hfne0, hfget]
    rfl

/-- Witness for C10 at `ㄱ`, `ㅏ`, final `ㄱ` (syllable `각`). -/
theorem C10_witness :
    ∃ c : Char, composeHangulSyllable 'ㄱ' 'ㅏ' (some 'ㄱ') = [c] ∧
      decomposeHangul c = some ⟨'ㄱ', 'ㅏ', some 'ㄱ'⟩ :=
  C10_roundtrip 'ㄱ' 'ㅏ' (some 'ㄱ') (by decide) (by decide)
    (fun cf h => by
      injection h with h2
      subst h2
      exact ⟨by decide, by decide⟩)

end Labola








